import Mathlib

/-!
# Verification of the moda evaluation harness (`src/moda/evaluators/eval.py`)

This file gives a shallow embedding of the evaluation/scoring engine of the
moda repository and proves/refutes the frozen claims about it.

Conventions of the embedding:
* timestamps and categories are `Nat`; data values are `Int`;
* a pandas `NaN` cell is `Option.none`, a present cell is `some v`;
* a raised Python exception is an `Except.error`;
* `print` diagnostics relevant to claims are returned as `List String`;
* calls to a model's `fit`/`predict` are recorded as an event trace.

The per-category TP/FP/FN matcher (`get_metrics_with_shift`), the metric
initializer (`_initialize_metrics`) and the finalizer (`get_final_metrics`)
live in `moda/evaluators/metrics/metrics.py`, which is not part of the
source tree given here; they are modelled from the specification (§4.3,
§4.4) and marked `Modelled from the spec:` below.  Everything else is
translated directly from `eval.py`.
-/

namespace Moda

/-- Absolute difference of two positions. -/
def absDiff (a b : Nat) : Nat := if a ≤ b then b - a else a - b

/-- Indices of a sequence where the cell is a (non-NaN) nonzero value or a NaN
(`numpy`'s `x != 0` is true for NaN): the positions of the events.  A cell
`some 0` is "no event"; everything else is an event. -/
def eventIndices (xs : List (Option Int)) : List Nat :=
  (List.range xs.length).filter (fun i => xs.getD i (some 0) ≠ some 0)

/-- Modelled from the spec: one step of the greedy closest-first search of
§4.3 — among the not-yet-consumed predicted indices `ps`, the candidates
within `[a - w, a + w]`; pick the one closest to `a`, ties broken by the
earliest (leftmost) index.  `ps` is kept in ascending order by the caller,
so a left fold that replaces only on a strictly smaller distance realises
the leftmost tie-break. -/
def pickClosest (w a : Nat) (ps : List Nat) : Option Nat :=
  ps.foldl
    (fun best p =>
      if absDiff p a ≤ w then
        match best with
        | none => some p
        | some b => if absDiff p a < absDiff b a then some p else best
      else best)
    none

/-- Modelled from the spec: the greedy one-to-one matching loop of §4.3.
For each actual-event index (ascending), consume the closest available
predicted-event index within the window; return the number of matches (TP)
together with the predicted indices left unconsumed (each a future FP). -/
def greedyTP (w : Nat) (as ps : List Nat) : Nat × List Nat :=
  match as with
  | [] => (0, ps)
  | a :: rest =>
    match pickClosest w a ps with
    | some p =>
      let r := greedyTP w rest (ps.erase p)
      (r.1 + 1, r.2)
    | none => greedyTP w rest ps

/-- The per-category accumulator `{TP, FP, FN, num_samples, num_values}`. -/
structure Counts where
  tp : Nat := 0
  fp : Nat := 0
  fn : Nat := 0
  num_samples : Nat := 0
  num_values : Int := 0
deriving DecidableEq, Repr

/-- The metrics dictionary: an association list category ↦ counts, in
insertion order (a Python `dict`). -/
abbrev Metrics := List (Nat × Counts)

/-- The counts stored for a category (zero counts when the key is absent). -/
def countsOf (m : Metrics) (c : Nat) : Counts :=
  ((m.find? (fun p => p.1 = c)).map (fun p => p.2)).getD {}

/-- Update the entry of category `c` in place; if the category is not yet a
key, insert it with zeroed counts first (the spec leaves behaviour for an
unknown category unspecified: initialization (§4.4) creates every key in
advance, so the insert branch is never reached on the harness's own runs). -/
def updateCat (m : Metrics) (c : Nat) (f : Counts → Counts) : Metrics :=
  match m with
  | [] => [(c, f {})]
  | p :: t => if p.1 = c then (p.1, f p.2) :: t else p :: updateCat t c f

/-- Modelled from the spec: `get_metrics_with_shift` of
`moda/evaluators/metrics/metrics.py` (not in the given source tree), per
§4.3: extract the ordered event-index lists `P` and `A` from the predicted
and actual sequences, run the greedy closest-first one-to-one matching, and
add TP, FN = |A| − TP, FP = number of unconsumed predicted indices to the
category's accumulator. -/
def get_metrics_with_shift (predicted actual : List (Option Int)) (category : Nat)
    (metrics : Metrics) (window_size : Nat) : Metrics :=
  let P := eventIndices predicted
  let A := eventIndices actual
  let r := greedyTP window_size A P
  updateCat metrics category
    (fun c => { c with tp := c.tp + r.1, fn := c.fn + (A.length - r.1), fp := c.fp + r.2.length })

/-- Modelled from the spec: `_initialize_metrics` of
`moda/evaluators/metrics/metrics.py` (not in the given source tree), per
§4.4: a zeroed `Counts` for every category of the axis. -/
def _initialize_metrics (categories : List Nat) : Metrics :=
  categories.map (fun c => (c, {}))

/-- The finalized per-category read-only view (§3, FinalMetrics); `prec` and
`recl` are the precision and recall of the category. -/
structure Final where
  prec : ℚ
  recl : ℚ
  f1 : ℚ
  f05 : ℚ
  num_samples : Nat
  num_values : Int
deriving DecidableEq, Repr

/-- Modelled from the spec: `get_final_metrics` of
`moda/evaluators/metrics/metrics.py` (not in the given source tree), per
§4.4: precision/recall/F1/F0.5 with the zero-denominator-gives-0 policy
(in `ℚ`, division by zero is 0, which realises exactly that policy). -/
def get_final_metrics (m : Metrics) : List (Nat × Final) :=
  m.map (fun p =>
    let pr : ℚ := (p.2.tp : ℚ) / ((p.2.tp : ℚ) + (p.2.fp : ℚ))
    let rc : ℚ := (p.2.tp : ℚ) / ((p.2.tp : ℚ) + (p.2.fn : ℚ))
    (p.1,
      { prec := pr
        recl := rc
        f1 := 2 * pr * rc / (pr + rc)
        f05 := (5 / 4) * pr * rc / ((1 / 4) * pr + rc)
        num_samples := p.2.num_samples
        num_values := p.2.num_values }))

/-! ### Frames and the join (`_join_pred_to_dataset`, eval.py:239-244) -/

/-- A pandas DataFrame with a two-level MultiIndex (date, category) and one
data column.  `levelNames` are the names of the two index levels,
`dateLevel`/`catLevel` the level values (which may include values unused by
the rows, as in pandas), `colName` the name of the single data column, and
`rows` the (key, value) pairs in frame order. -/
structure DFrame where
  levelNames : String × String := ("date", "category")
  dateLevel : List Nat := []
  catLevel : List Nat := []
  colName : String := "value"
  rows : List ((Nat × Nat) × Int) := []
deriving DecidableEq, Repr, Inhabited

/-- Value stored at a composite key (first match; the data model (§3)
declares (timestamp, category) keys unique within a frame). -/
def klookup (rows : List ((Nat × Nat) × Int)) (k : Nat × Nat) : Option Int :=
  (rows.find? (fun r => r.1 = k)).map (fun r => r.2)

/-- One row of the joined table: the column literally named `'prediction'`,
the label column, and the value column; `none` is a pandas `NaN`. -/
structure JRow where
  date : Nat
  cat : Nat
  prediction : Option Int
  label : Option Int
  value : Option Int
deriving DecidableEq, Repr

/-- The joined table together with the names of its label and value
columns (the prediction column is always literally `'prediction'`). -/
structure JFrame where
  labelName : String
  valueName : String
  rows : List JRow
deriving DecidableEq, Repr

/-- Ascending (timestamp, category) order on joined rows, the order of
`results.sort_index(level=['date', 'category'], ascending=True)`. -/
def jrowLE (a b : JRow) : Prop :=
  a.date < b.date ∨ (a.date = b.date ∧ a.cat ≤ b.cat)

instance : DecidableRel jrowLE := fun a b => by
  unfold jrowLE; infer_instance

instance : IsTotal JRow jrowLE :=
  ⟨by intro a b; unfold jrowLE; omega⟩

instance : IsTrans JRow jrowLE :=
  ⟨by intro a b c; unfold jrowLE; omega⟩

/-- One row of the left-join pipeline of `_join_pred_to_dataset`, anchored
at the prediction row `pr`: the selected column data of the first left
merge (a column name equal to the left frame's data column takes the left
value at `pr`'s key, otherwise the right frame is looked up at that key),
the label column filled with 0 where missing (`fillna(0)`), and the value
column of the second left merge, left as `NaN` (`none`) where missing. -/
def joinRow (original_df prediction_df test_values_df : DFrame)
    (label_col : String) (pr : (Nat × Nat) × Int) : JRow :=
  let pick : String → Option Int := fun name =>
    if name = prediction_df.colName then some pr.2 else klookup original_df.rows pr.1
  { date := pr.1.1
    cat := pr.1.2
    prediction := pick "prediction"
    label := some ((pick label_col).getD 0)  -- fillna(0)
    value := klookup test_values_df.rows pr.1 }

/-- eval.py:239-244.  `results = pd.merge(prediction_df, original_df,
how='left', on=['date','category'])[['prediction', label_col_name]]`, then a
second left merge with `test_values_df`, then
`results[label_col_name].fillna(0)` and an ascending sort on
`['date','category']`.  Merging `on=['date','category']` requires both
frames' index level names to be exactly those (else pandas raises a
`KeyError`), and the selection requires the literal column name
`'prediction'` (and `label_col_name`) to exist among the merged columns
(a column name shared by both sides is suffixed `_x`/`_y` by pandas).
`value_col_name` is accepted but unused, as in the source. -/
def _join_pred_to_dataset (original_df prediction_df test_values_df : DFrame)
    (label_col_name value_col_name : String) : Except String JFrame :=
  if prediction_df.levelNames ≠ ("date", "category")
      ∨ original_df.levelNames ≠ ("date", "category") then
    .error "KeyError: merge keys date, category not found"
  else
    let mergedCols : List String :=
      if prediction_df.colName = original_df.colName then
        [prediction_df.colName ++ "_x", original_df.colName ++ "_y"]
      else
        [prediction_df.colName, original_df.colName]
    if "prediction" ∉ mergedCols ∨ label_col_name ∉ mergedCols then
      .error "KeyError: column selection after first merge"
    else if test_values_df.levelNames ≠ ("date", "category") then
      .error "KeyError: merge keys date, category not found"
    else
      .ok { labelName := label_col_name
            valueName := test_values_df.colName
            rows := List.insertionSort jrowLE
              (prediction_df.rows.map
                (joinRow original_df prediction_df test_values_df label_col_name)) }

/-! ### Per-category metric computation (eval.py:177-236) -/

/-- A raised Python exception. -/
inductive PyErr where
  | typeError
  | keyError (msg : String)
  | valueError (msg : String)
deriving DecidableEq, Repr

/-- Column selection `dataset[name]` on the joined table, per row: its
columns are the literal `'prediction'`, the label column and the value
column; any other name raises a `KeyError`. -/
def rowCol (jf : JFrame) (name : String) (r : JRow) : Except PyErr (Option Int) :=
  if name = "prediction" then .ok r.prediction
  else if name = jf.labelName then .ok r.label
  else if name = jf.valueName then .ok r.value
  else .error (.keyError name)

/-- eval.py:208-236, `get_metrics_for_one_category`.  Restrict the joined
table to one category (`dataset.loc[pd.IndexSlice[:, category], :]`), read
the predicted and actual sequences through the configured column names
(each read raises `KeyError` when the column is absent), run the shift
matcher, and add `num_samples` and `num_values` (a `NaN` among the summed
values is treated as 0 here; `np.sum` would instead poison the sum, which
no claim depends on). -/
def get_metrics_for_one_category (dataset : JFrame)
    (label_col_name prediction_col_name value_col_name : String)
    (window_size_for_metrics : Nat) (category : Nat) (metrics : Metrics) :
    Except PyErr Metrics :=
  let category_results := dataset.rows.filter (fun r => r.cat = category)
  match category_results.mapM (rowCol dataset prediction_col_name) with
  | .error e => .error e
  | .ok predicted =>
    match category_results.mapM (rowCol dataset label_col_name) with
    | .error e => .error e
    | .ok actual =>
      let m := get_metrics_with_shift predicted actual category metrics
        window_size_for_metrics
      match category_results.mapM (rowCol dataset value_col_name) with
      | .error e => .error e
      | .ok vals =>
        .ok (updateCat m category (fun c =>
          { c with num_samples := c.num_samples + category_results.length
                   num_values := c.num_values + (vals.map (fun v => v.getD 0)).sum }))

/-- The categories of the joined result (`results.index.levels[1]`,
eval.py:201): the distinct categories attached to its rows. -/
def resultCategories (jf : JFrame) : List Nat :=
  (jf.rows.map (fun r => r.cat)).dedup

/-- The `for category in results.index.levels[1]` loop of
`get_evaluation_metrics` (eval.py:201-203); an exception aborts it. -/
def accumCategories (dataset : JFrame)
    (label_col_name prediction_col_name value_col_name : String)
    (window_size_for_metrics : Nat) :
    List Nat → Metrics → Except PyErr Metrics
  | [], m => .ok m
  | c :: cs, m =>
    match get_metrics_for_one_category dataset label_col_name prediction_col_name
        value_col_name window_size_for_metrics c m with
    | .error e => .error e
    | .ok m2 =>
      accumCategories dataset label_col_name prediction_col_name value_col_name
        window_size_for_metrics cs m2

/-- eval.py:177-205, `get_evaluation_metrics`: join, then accumulate each
category of the joined result.  The `metrics is None` branch of the source
is dead on both harness call sites (each passes an initialized dictionary)
and is not modelled. -/
def get_evaluation_metrics (test_values_df prediction_df labels_df : DFrame)
    (metrics : Metrics) (value_col_name label_col_name prediction_col_name : String)
    (window_size_for_metrics : Nat) : Except PyErr Metrics :=
  match _join_pred_to_dataset labels_df prediction_df test_values_df
      label_col_name value_col_name with
  | .error e => .error (.keyError e)
  | .ok results =>
    accumCategories results label_col_name prediction_col_name value_col_name
      window_size_for_metrics (resultCategories results) metrics

/-! ### Splitters (eval.py:43-47, 118-124, and sklearn's TimeSeriesSplit) -/

/-- eval.py:46-47: `train = datetimeindex[:int(num_dates * train_percent / 100)]`
and `test = datetimeindex[int(num_dates * train_percent / 100):]` (the
single percentage split). -/
def split_percent (datetimeindex : List Nat) (train_percent : Nat) : List Nat × List Nat :=
  (datetimeindex.take (datetimeindex.length * train_percent / 100),
   datetimeindex.drop (datetimeindex.length * train_percent / 100))

/-- eval.py:118-124: resolution of `n_splits` before the CV loop, together
with the diagnostics printed on the way (second component).  `None`
defaults to `int(len(dates) / 2)`; a value larger than the number of dates
is clamped to `int(len(dates) / 2)` with a printed warning. -/
def resolve_n_splits (n_splits : Option Nat) (num_dates : Nat) : Nat × List String :=
  match n_splits with
  | none => (num_dates / 2, [s!"Running {num_dates / 2} splits"])
  | some s =>
    if s > num_dates then
      (num_dates / 2,
        [s!"Warning: n_splits cannot be larger than the number of dates. Reducing n_splits to {num_dates / 2}"])
    else (s, [])

/-- Models `sklearn.model_selection.TimeSeriesSplit(n_splits).split(x)` with
`n_samples = len(x)` (eval.py:134,138; sklearn is an external dependency of
the source, embedded from its documented walk-forward algorithm): the
constructor rejects `n_splits ≤ 1`, `split` rejects
`n_folds = n_splits + 1 > n_samples`; fold `i` (0-based) has the
`test_size = n_samples // (n_splits + 1)` test indices starting at
`n_samples - (n_splits - i) * test_size`, and every earlier index as
training indices. -/
def timeSeriesSplit (n_splits n_samples : Nat) : Except String (List (List Nat × List Nat)) :=
  if n_splits ≤ 1 then
    .error "k-fold cross-validation requires at least one train/test split"
  else if n_splits + 1 > n_samples then
    .error "Cannot have number of folds greater than the number of samples"
  else
    let test_size := n_samples / (n_splits + 1)
    .ok ((List.range n_splits).map (fun i =>
      let test_start := n_samples - (n_splits - i) * test_size
      (List.range test_start, List.range' test_start test_size)))

/-! ### The evaluation harness (eval.py:10-172) -/

/-- eval.py:169-172, `_prep_set`: `X.copy().loc[dates]` — the rows whose
date is among `dates`; the `.copy()` has no observable effect in this pure
embedding (see the heap embedding below for the aliasing claim) — then
`new_samples.index = new_samples.index.remove_unused_levels()`. -/
def locDates (X : DFrame) (dates : List Nat) : DFrame :=
  { X with rows := X.rows.filter (fun r => r.1.1 ∈ dates) }

/-- The call `index.remove_unused_levels()`: keep only the level values that are
actually used by some row, in level order. -/
def removeUnusedLevels (X : DFrame) : DFrame :=
  { X with
    dateLevel := X.dateLevel.filter (fun d => X.rows.any (fun r => r.1.1 = d))
    catLevel := X.catLevel.filter (fun c => X.rows.any (fun r => r.1.2 = c)) }

def _prep_set (X : DFrame) (dates : List Nat) : DFrame :=
  removeUnusedLevels (locDates X dates)

/-- A model under evaluation: `fit(X=train_samples, y=train_labels)`
followed by `predict(X=test_samples)` is one opaque function from the three
frames to the prediction frame; `name` is `str(model.__name__)`. -/
structure Model where
  name : String
  run : DFrame → DFrame → DFrame → DFrame
deriving Inhabited

/-- A `fit` or `predict` call issued to a model, recorded in order. -/
inductive Event where
  | fit (model : String)
  | predict (model : String)
deriving DecidableEq, Repr

/-- The per-fold block duplicated at eval.py:58-77 (single split) and
eval.py:143-160 (one CV iteration): prepare the four subsets, skip when the
test-label set is empty, otherwise fit, predict and accumulate metrics.
Returns the `fit`/`predict` calls issued and the updated metrics (or the
propagated exception). -/
def runFold (X y : DFrame) (model : Model)
    (label_col_name prediction_col_name value_col_name : String)
    (window_size_for_metrics : Nat) (trainDates testDates : List Nat)
    (metrics : Metrics) : List Event × Except PyErr Metrics :=
  let train_samples := _prep_set X trainDates
  let train_labels := _prep_set y trainDates
  let test_samples := _prep_set X testDates
  let test_labels := _prep_set y testDates
  if test_labels.rows.length > 0 then
    let prediction := model.run train_samples train_labels test_samples
    ([.fit model.name, .predict model.name],
      get_evaluation_metrics test_samples prediction test_labels metrics
        value_col_name label_col_name prediction_col_name window_size_for_metrics)
  else
    ([], .ok metrics)

/-- One iteration of the fold loop: an already-raised exception skips the
remaining folds (Python unwinds); otherwise the per-fold block runs and its
`fit`/`predict` calls are appended to the trace. -/
def foldStep (X y : DFrame) (model : Model)
    (label_col_name prediction_col_name value_col_name : String)
    (window_size_for_metrics : Nat) (acc : List Event × Except PyErr Metrics)
    (fold : List Nat × List Nat) : List Event × Except PyErr Metrics :=
  match acc.2 with
  | .error _ => acc
  | .ok m =>
    let s := runFold X y model label_col_name prediction_col_name value_col_name
      window_size_for_metrics fold.1 fold.2 m
    (acc.1 ++ s.1, s.2)

/-- The body of the per-model loop (eval.py:50-82 and 130-165): a fresh
metrics dictionary over the full category axis of `X`, then every fold in
order (an exception aborts the remaining folds), then finalization. -/
def evalOneModel (X y : DFrame) (model : Model)
    (label_col_name prediction_col_name value_col_name : String)
    (window_size_for_metrics : Nat) (folds : List (List Nat × List Nat)) :
    List Event × Except PyErr (List (Nat × Final)) :=
  let r := folds.foldl
    (foldStep X y model label_col_name prediction_col_name value_col_name
      window_size_for_metrics)
    ([], .ok (_initialize_metrics X.catLevel))
  (r.1, r.2.map get_final_metrics)

/-- One iteration of the `for model in models` loop: an already-raised
exception skips the remaining models (Python unwinds); otherwise the
model's evaluation result is appended under the model's name. -/
def modelStep (f : Model → List Event × Except PyErr (List (Nat × Final)))
    (acc : List Event × Except PyErr (List (String × List (Nat × Final))))
    (model : Model) :
    List Event × Except PyErr (List (String × List (Nat × Final))) :=
  match acc.2 with
  | .error _ => acc
  | .ok l =>
    let s := f model
    match s.2 with
    | .error e => (acc.1 ++ s.1, .error e)
    | .ok fm => (acc.1 ++ s.1, .ok (l ++ [(model.name, fm)]))

/-- The `for model in models` loop shared by both harness entry points:
each model's result is keyed by its name, in order; an exception raised
while evaluating one model propagates (later models do not run). -/
def runModelsLoop (f : Model → List Event × Except PyErr (List (Nat × Final)))
    (models : List Model) :
    List Event × Except PyErr (List (String × List (Nat × Final))) :=
  models.foldl (modelStep f) ([], .ok [])

/-- eval.py:10-83, `eval_models`: the single percentage-split harness.
`None` features or labels raise `TypeError` before anything runs; the
result maps each model's name to its finalized metrics.  The first
component is the trace of `fit`/`predict` calls issued. -/
def eval_models (X y : Option DFrame) (models : List Model)
    (label_col_name prediction_col_name value_col_name : String)
    (window_size_for_metrics : Nat) (train_percent : Nat) :
    List Event × Except PyErr (List (String × List (Nat × Final))) :=
  match X, y with
  | none, _ => ([], .error .typeError)
  | some _, none => ([], .error .typeError)
  | some X, some y =>
    let p := split_percent X.dateLevel train_percent
    runModelsLoop
      (fun model =>
        evalOneModel X y model label_col_name prediction_col_name value_col_name
          window_size_for_metrics [(p.1, p.2)])
      models

/-- The maps `datetimeindex[train], datetimeindex[test]` (eval.py:143-147): the
index folds of `TimeSeriesSplit` mapped through the date axis. -/
def foldDates (datetimeindex : List Nat) (idxFolds : List (List Nat × List Nat)) :
    List (List Nat × List Nat) :=
  idxFolds.map (fun f =>
    (f.1.map (fun i => datetimeindex.getD i 0),
     f.2.map (fun i => datetimeindex.getD i 0)))

/-- One model's evaluation in CV mode (the body of the `for model in models`
loop, eval.py:130-165): `TimeSeriesSplit` is constructed inside the loop
(eval.py:134), its folds are mapped through the date axis, and the common
per-model evaluation runs over them. -/
def cvModelEval (X y : DFrame)
    (label_col_name prediction_col_name value_col_name : String)
    (window_size_for_metrics ns nd : Nat) (model : Model) :
    List Event × Except PyErr (List (Nat × Final)) :=
  match timeSeriesSplit ns nd with
  | .error e => ([], .error (.valueError e))
  | .ok idxFolds =>
    evalOneModel X y model label_col_name prediction_col_name value_col_name
      window_size_for_metrics (foldDates X.dateLevel idxFolds)

/-- eval.py:86-166, `eval_models_CV`: the expanding-window CV harness.
`n_splits` is resolved up front (eval.py:118-124); the `TimeSeriesSplit`
is constructed inside the per-model loop, and its index folds are mapped
through the date axis (`datetimeindex[train]`, `datetimeindex[test]`). -/
def eval_models_CV (X y : Option DFrame) (models : List Model)
    (label_col_name prediction_col_name value_col_name : String)
    (n_splits : Option Nat) (window_size_for_metrics : Nat) :
    List Event × Except PyErr (List (String × List (Nat × Final))) :=
  match X, y with
  | none, _ => ([], .error .typeError)
  | some _, none => ([], .error .typeError)
  | some X, some y =>
    let nd := X.dateLevel.length
    let ns := (resolve_n_splits n_splits nd).1
    runModelsLoop
      (cvModelEval X y label_col_name prediction_col_name value_col_name
        window_size_for_metrics ns nd)
      models

/-! ### Heap embedding of the harness (aliasing/mutation effects)

pandas DataFrames are mutable objects; to state that the harness leaves its
input frames unchanged, the same harness is embedded once more with frame
*objects* living in an explicit heap (a list of frames addressed by index).
Allocation appends; in-place mutation writes at an index.  The only
in-place writes the harness performs are the index reassignment of
`_prep_set` (eval.py:171, on the fresh `.copy().loc[...]` object) and the
in-place sort inside `_join_pred_to_dataset` (eval.py:243, on the fresh
merge output, which this embedding keeps as a value); models are passed
only the freshly prepared frames. -/

abbrev Heap := List DFrame

/-- eval.py:169-172 with explicit objects: `X.copy()` allocates a copy,
`.loc[dates]` allocates the selected sub-frame, and
`new_samples.index = new_samples.index.remove_unused_levels()` mutates that
fresh object in place.  Returns the new heap and the address of the
prepared frame. -/
def prepSetH (h : Heap) (x : Nat) (dates : List Nat) : Heap × Nat :=
  let h1 := h ++ [h.getD x default]
  let sub := locDates (h1.getD h.length default) dates
  let h2 := h1 ++ [sub]
  let h3 := h2.set (h.length + 1) (removeUnusedLevels (h2.getD (h.length + 1) default))
  (h3, h.length + 1)

/-- The per-fold block (eval.py:58-77, 143-160) over the heap: four
`_prep_set` allocations, then (unless the test-label set is empty) the
model's prediction frame is allocated and the metrics computed from the
frames' current contents. -/
def runFoldH (h : Heap) (x y : Nat) (model : Model)
    (label_col_name prediction_col_name value_col_name : String)
    (window_size_for_metrics : Nat) (trainDates testDates : List Nat)
    (metrics : Metrics) : Heap × (List Event × Except PyErr Metrics) :=
  let s1 := prepSetH h x trainDates
  let s2 := prepSetH s1.1 y trainDates
  let s3 := prepSetH s2.1 x testDates
  let s4 := prepSetH s3.1 y testDates
  let h4 := s4.1
  if (h4.getD s4.2 default).rows.length > 0 then
    let prediction := model.run (h4.getD s1.2 default) (h4.getD s2.2 default)
      (h4.getD s3.2 default)
    let h5 := h4 ++ [prediction]
    (h5, ([.fit model.name, .predict model.name],
      get_evaluation_metrics (h5.getD s3.2 default) (h5.getD h4.length default)
        (h5.getD s4.2 default) metrics value_col_name label_col_name
        prediction_col_name window_size_for_metrics))
  else
    (h4, ([], .ok metrics))

/-- One iteration of the fold loop over the heap. -/
def foldStepH (x y : Nat) (model : Model)
    (label_col_name prediction_col_name value_col_name : String)
    (window_size_for_metrics : Nat)
    (acc : Heap × (List Event × Except PyErr Metrics)) (fold : List Nat × List Nat) :
    Heap × (List Event × Except PyErr Metrics) :=
  match acc.2.2 with
  | .error _ => acc
  | .ok m =>
    let s := runFoldH acc.1 x y model label_col_name prediction_col_name
      value_col_name window_size_for_metrics fold.1 fold.2 m
    (s.1, (acc.2.1 ++ s.2.1, s.2.2))

/-- The per-model loop body (eval.py:50-82, 130-165) over the heap. -/
def evalOneModelH (h : Heap) (x y : Nat) (model : Model)
    (label_col_name prediction_col_name value_col_name : String)
    (window_size_for_metrics : Nat) (folds : List (List Nat × List Nat)) :
    Heap × (List Event × Except PyErr (List (Nat × Final))) :=
  let r := folds.foldl
    (foldStepH x y model label_col_name prediction_col_name value_col_name
      window_size_for_metrics)
    (h, ([], .ok (_initialize_metrics ((h.getD x default).catLevel))))
  (r.1, (r.2.1, r.2.2.map get_final_metrics))

/-- One iteration of the `for model in models` loop over the heap. -/
def modelStepH
    (f : Heap → Model → Heap × (List Event × Except PyErr (List (Nat × Final))))
    (acc : Heap × (List Event × Except PyErr (List (String × List (Nat × Final)))))
    (model : Model) :
    Heap × (List Event × Except PyErr (List (String × List (Nat × Final)))) :=
  match acc.2.2 with
  | .error _ => acc
  | .ok l =>
    let s := f acc.1 model
    match s.2.2 with
    | .error e => (s.1, (acc.2.1 ++ s.2.1, .error e))
    | .ok fm => (s.1, (acc.2.1 ++ s.2.1, .ok (l ++ [(model.name, fm)])))

/-- The `for model in models` loop over the heap. -/
def runModelsLoopH
    (f : Heap → Model → Heap × (List Event × Except PyErr (List (Nat × Final))))
    (h : Heap) (models : List Model) :
    Heap × (List Event × Except PyErr (List (String × List (Nat × Final)))) :=
  models.foldl (modelStepH f) (h, ([], .ok []))

/-- eval.py:10-83 over the heap: the inputs are the frames at addresses
`x` and `y`. -/
def eval_modelsH (h : Heap) (x y : Nat) (models : List Model)
    (label_col_name prediction_col_name value_col_name : String)
    (window_size_for_metrics : Nat) (train_percent : Nat) :
    Heap × (List Event × Except PyErr (List (String × List (Nat × Final)))) :=
  let p := split_percent ((h.getD x default).dateLevel) train_percent
  runModelsLoopH
    (fun hh model =>
      evalOneModelH hh x y model label_col_name prediction_col_name value_col_name
        window_size_for_metrics [(p.1, p.2)])
    h models

/-- eval.py:86-166 over the heap. -/
def eval_models_CVH (h : Heap) (x y : Nat) (models : List Model)
    (label_col_name prediction_col_name value_col_name : String)
    (n_splits : Option Nat) (window_size_for_metrics : Nat) :
    Heap × (List Event × Except PyErr (List (String × List (Nat × Final)))) :=
  let nd := ((h.getD x default).dateLevel).length
  let ns := (resolve_n_splits n_splits nd).1
  runModelsLoopH
    (fun hh model =>
      match timeSeriesSplit ns nd with
      | .error e => (hh, ([], .error (.valueError e)))
      | .ok idxFolds =>
        evalOneModelH hh x y model label_col_name prediction_col_name value_col_name
          window_size_for_metrics (foldDates ((h.getD x default).dateLevel) idxFolds))
    h models

/-! ### Helper lemmas about `updateCat` and the matcher -/

theorem countsOf_updateCat_self (m : Metrics) (c : Nat) (f : Counts → Counts) :
    countsOf (updateCat m c f) c = f (countsOf m c) := by
  induction m with
  | nil => simp [updateCat, countsOf, List.find?]
  | cons p t ih =>
    by_cases hp : p.1 = c
    · simp [updateCat, countsOf, List.find?_cons, hp]
    · simp only [updateCat, if_neg hp]
      simpa [countsOf, List.find?_cons, hp] using ih

theorem greedyTP_single_single (w i j : Nat) :
    greedyTP w [j] [i] = if absDiff i j ≤ w then (1, []) else (0, [i]) := by
  by_cases h : absDiff i j ≤ w
  · simp [greedyTP, pickClosest, h, List.erase_cons]
  · simp [greedyTP, pickClosest, h]

/-- C1. Shift-window tolerance of the matcher (P3): with exactly one
predicted event at position `i` and exactly one true event at position `j`,
if `|i − j| ≤ window_size` they are paired as one match (the category's TP
grows by exactly one, FP and FN unchanged), and if `|i − j| > window_size`
they are not paired (FP and FN each grow by one, TP unchanged). -/
theorem matcher_window_tolerance (pred act : List (Option Int)) (i j w cat : Nat)
    (m : Metrics) (hp : eventIndices pred = [i]) (ha : eventIndices act = [j]) :
    (absDiff i j ≤ w →
      countsOf (get_metrics_with_shift pred act cat m w) cat
        = { countsOf m cat with tp := (countsOf m cat).tp + 1 }) ∧
    (w < absDiff i j →
      countsOf (get_metrics_with_shift pred act cat m w) cat
        = { countsOf m cat with fp := (countsOf m cat).fp + 1,
                                fn := (countsOf m cat).fn + 1 }) := by
  constructor
  · intro hle
    have h1 : greedyTP w [j] (eventIndices pred) = (1, []) := by
      rw [hp, greedyTP_single_single, if_pos hle]
    simp only [get_metrics_with_shift, ha, h1, countsOf_updateCat_self]
    simp
  · intro hgt
    have hle : ¬ absDiff i j ≤ w := by omega
    have h1 : greedyTP w [j] (eventIndices pred) = (0, [i]) := by
      rw [hp, greedyTP_single_single, if_neg hle]
    simp only [get_metrics_with_shift, ha, h1, countsOf_updateCat_self]
    simp

/-- Witness for C1: concrete sequences with one predicted event at 1 and one
true event at 2, window 1: matched, TP goes 0 → 1. -/
theorem matcher_window_tolerance_witness :
    eventIndices [some 0, some 1, some 0] = [1] ∧
    eventIndices [some 0, some 0, some (-1)] = [2] ∧
    absDiff 1 2 ≤ 1 ∧
    countsOf (get_metrics_with_shift [some 0, some 1, some 0]
      [some 0, some 0, some (-1)] 7 [(7, {})] 1) 7
      = { tp := 1, fp := 0, fn := 0, num_samples := 0, num_values := 0 } := by
  refine ⟨by decide, by decide, by decide, ?_⟩
  have h := (matcher_window_tolerance [some 0, some 1, some 0]
    [some 0, some 0, some (-1)] 1 2 1 7 [(7, {})] (by decide) (by decide)).1 (by decide)
  rw [h]
  decide

/-! ### The join: claims C2 and C9 -/

theorem join_ok_eq (original prediction values : DFrame) (labelCol valueCol : String)
    (h1 : prediction.levelNames = ("date", "category"))
    (h2 : original.levelNames = ("date", "category"))
    (h3 : values.levelNames = ("date", "category"))
    (h4 : prediction.colName = "prediction")
    (h5 : original.colName = labelCol)
    (h6 : labelCol ≠ "prediction") :
    _join_pred_to_dataset original prediction values labelCol valueCol
      = .ok { labelName := labelCol
              valueName := values.colName
              rows := List.insertionSort jrowLE
                (prediction.rows.map (joinRow original prediction values labelCol)) } := by
  have hcolne : prediction.colName ≠ original.colName := by
    rw [h4, h5]; exact Ne.symm h6
  simp [_join_pred_to_dataset, h1, h2, h3, h4, h5, hcolne, Ne.symm h6]

/-- C2. The join is anchored on the prediction keys (every predicted key
has exactly one row — in fact the joined keys are a permutation of the
predicted keys), every missing label is filled with 0 (the label column is
never `NaN`), missing values of the second left-join stay `NaN` (`none`),
and the result is sorted ascending by (timestamp, category). -/
theorem join_anchored_filled_sorted (original prediction values : DFrame)
    (labelCol valueCol : String) (jf : JFrame)
    (h1 : prediction.levelNames = ("date", "category"))
    (h2 : original.levelNames = ("date", "category"))
    (h3 : values.levelNames = ("date", "category"))
    (h4 : prediction.colName = "prediction")
    (h5 : original.colName = labelCol)
    (h6 : labelCol ≠ "prediction")
    (hok : _join_pred_to_dataset original prediction values labelCol valueCol = .ok jf) :
    ((jf.rows.map (fun r => (r.date, r.cat))).Perm (prediction.rows.map (fun r => r.1))) ∧
    (∀ r ∈ jf.rows, r.label = some ((klookup original.rows (r.date, r.cat)).getD 0)) ∧
    (∀ r ∈ jf.rows, r.value = klookup values.rows (r.date, r.cat)) ∧
    List.Sorted jrowLE jf.rows := by
  rw [join_ok_eq original prediction values labelCol valueCol h1 h2 h3 h4 h5 h6] at hok
  have hjf := (Except.ok.injEq _ _).mp hok.symm
  subst hjf
  refine ⟨?_, ?_, ?_, ?_⟩
  · refine ((List.perm_insertionSort jrowLE _).map _).trans ?_
    rw [List.map_map]
    refine List.Perm.of_eq (List.map_congr_left ?_)
    intro pr _
    simp [joinRow]
  · intro r hr
    rw [List.mem_insertionSort] at hr
    rcases List.mem_map.mp hr with ⟨pr, _, rfl⟩
    have hne : ¬ labelCol = prediction.colName := by rw [h4]; exact h6
    simp [joinRow, hne]
  · intro r hr
    rw [List.mem_insertionSort] at hr
    rcases List.mem_map.mp hr with ⟨pr, _, rfl⟩
    simp [joinRow]
  · exact List.sorted_insertionSort jrowLE _

/-- Witness for C2: a concrete join with a predicted key `(2, 0)` that has
no label (filled with 0) and no value (stays `NaN`), and unsorted
prediction input that comes out sorted. -/
theorem join_anchored_filled_sorted_witness :
    ∃ jf, _join_pred_to_dataset
        { colName := "label", rows := [((1, 0), 1)] }
        { colName := "prediction", rows := [((2, 0), 1), ((1, 0), 0)] }
        { colName := "value", rows := [((1, 0), 5)] }
        "label" "value" = .ok jf ∧
      ((jf.rows.map (fun r => (r.date, r.cat))).Perm [(2, 0), (1, 0)]) ∧
      (∀ r ∈ jf.rows, r.label = some ((klookup [((1, 0), 1)] (r.date, r.cat)).getD 0)) ∧
      (∀ r ∈ jf.rows, r.value = klookup [((1, 0), 5)] (r.date, r.cat)) ∧
      List.Sorted jrowLE jf.rows := by
  refine ⟨{ labelName := "label", valueName := "value",
            rows := [{ date := 1, cat := 0, prediction := some 0,
                       label := some 1, value := some 5 },
                     { date := 2, cat := 0, prediction := some 1,
                       label := some 0, value := none }] }, ?_, ?_⟩
  · rfl
  · exact join_anchored_filled_sorted
      { colName := "label", rows := [((1, 0), 1)] }
      { colName := "prediction", rows := [((2, 0), 1), ((1, 0), 0)] }
      { colName := "value", rows := [((1, 0), 5)] }
      "label" "value" _ rfl rfl rfl rfl rfl (by decide) rfl

/-! ### Input validation: claim C3 -/

/-- C3 counterexample: empty (but defined) features and labels do NOT make
the harness fail — the single-split harness returns normally with an empty
report for the model, refuting the claim that empty inputs raise
`InvalidInputError`.  (Only `None` inputs are checked, eval.py:37-40.) -/
theorem eval_models_empty_input_returns_ok :
    (eval_models (some { colName := "value" }) (some { colName := "label" })
        [{ name := "m", run := fun _ _ t => t }] "label" "prediction" "value" 3 70).2
      = .ok [("m", [])] := rfl

/-- C3 (amended). Undefined (`None`) features or labels raise `TypeError`
immediately, in both the single-split and the CV harness: the call trace is
empty (no model was fit) and nothing was computed. -/
theorem eval_models_none_raises (X y : Option DFrame) (models : List Model)
    (lbl pcn vcn : String) (w tp : Nat) (ns : Option Nat)
    (h : X = none ∨ y = none) :
    eval_models X y models lbl pcn vcn w tp = ([], .error .typeError) ∧
    eval_models_CV X y models lbl pcn vcn ns w = ([], .error .typeError) := by
  rcases h with rfl | rfl
  · exact ⟨rfl, rfl⟩
  · cases X <;> exact ⟨rfl, rfl⟩

/-- Witness for the amended C3, at `X = none`. -/
theorem eval_models_none_raises_witness :
    ((none : Option DFrame) = none ∨ (some default : Option DFrame) = none) ∧
    (eval_models none (some default) [] "label" "prediction" "value" 3 70
        = ([], .error .typeError) ∧
      eval_models_CV none (some default) [] "label" "prediction" "value" none 3
        = ([], .error .typeError)) :=
  ⟨Or.inl rfl,
   eval_models_none_raises none (some default) [] "label" "prediction" "value" 3 70 none
     (Or.inl rfl)⟩

/-! ### The percentage split: claim C4 -/

/-- C4. On a non-empty date axis with `train_percent ≤ 100`, the single
split takes the contiguous prefix of length
`⌊len(dates) · train_percent / 100⌋` as train and the remaining suffix as
test; they are disjoint and together cover the whole axis. -/
theorem split_percent_spec (dates : List Nat) (train_percent : Nat)
    (hne : dates ≠ []) (hnd : dates.Nodup) (hp : train_percent ≤ 100) :
    (split_percent dates train_percent).1
        = dates.take (dates.length * train_percent / 100) ∧
    (split_percent dates train_percent).1.length
        = dates.length * train_percent / 100 ∧
    (split_percent dates train_percent).1 ++ (split_percent dates train_percent).2 = dates ∧
    ∀ d ∈ (split_percent dates train_percent).1,
      d ∉ (split_percent dates train_percent).2 := by
  have hk : dates.length * train_percent / 100 ≤ dates.length := by
    have h1 : dates.length * train_percent / 100 ≤ dates.length * 100 / 100 :=
      Nat.div_le_div_right (Nat.mul_le_mul_left _ hp)
    have h2 : dates.length * 100 / 100 = dates.length :=
      Nat.mul_div_cancel dates.length (by omega)
    omega
  refine ⟨rfl, ?_, ?_, ?_⟩
  · simp [split_percent, List.length_take, Nat.min_eq_left hk]
  · exact List.take_append_drop _ _
  · intro d hd hd'
    exact (List.disjoint_take_drop hnd le_rfl) hd hd'

/-- Witness for C4 on a concrete three-date axis with a 70% split. -/
theorem split_percent_spec_witness :
    ([10, 20, 30] : List Nat) ≠ [] ∧ ([10, 20, 30] : List Nat).Nodup ∧ 70 ≤ 100 ∧
    ((split_percent [10, 20, 30] 70).1 = [10, 20] ∧
      (split_percent [10, 20, 30] 70).1.length = 2 ∧
      (split_percent [10, 20, 30] 70).1 ++ (split_percent [10, 20, 30] 70).2
        = [10, 20, 30] ∧
      ∀ d ∈ (split_percent [10, 20, 30] 70).1,
        d ∉ (split_percent [10, 20, 30] 70).2) :=
  ⟨by decide, by decide, by decide, by
    simpa using split_percent_spec [10, 20, 30] 70 (by decide) (by decide) (by decide)⟩

/-! ### CV `n_splits` resolution: claim C5 -/

/-- C5. An unset `n_splits` defaults to `⌊len(dates)/2⌋`; a requested
`n_splits` larger than the number of distinct dates is clamped to
`⌊len(dates)/2⌋` with a printed warning (not an error), and the CV harness
behaves exactly as if the clamped value had been requested. -/
theorem n_splits_default_clamp_warn (s n w : Nat) (X y : DFrame) (models : List Model)
    (lbl pcn vcn : String) :
    resolve_n_splits none n = (n / 2, [s!"Running {n / 2} splits"]) ∧
    (s > n →
      resolve_n_splits (some s) n
        = (n / 2,
           [s!"Warning: n_splits cannot be larger than the number of dates. Reducing n_splits to {n / 2}"])) ∧
    (s > X.dateLevel.length →
      eval_models_CV (some X) (some y) models lbl pcn vcn (some s) w
        = eval_models_CV (some X) (some y) models lbl pcn vcn
            (some (X.dateLevel.length / 2)) w) := by
  refine ⟨rfl, fun h => by simp [resolve_n_splits, h], fun h => ?_⟩
  have h1 : (resolve_n_splits (some s) X.dateLevel.length).1 = X.dateLevel.length / 2 := by
    simp [resolve_n_splits, h]
  have h2 : (resolve_n_splits (some (X.dateLevel.length / 2)) X.dateLevel.length).1
      = X.dateLevel.length / 2 := by
    simp [resolve_n_splits, Nat.not_lt.mpr (Nat.div_le_self _ _)]
  simp only [eval_models_CV, h1, h2]

/-- Witness for C5: requested 5 splits on a 2-date axis are clamped to 1
with the warning, and the run equals the run with `n_splits = 1`. -/
theorem n_splits_default_clamp_warn_witness :
    resolve_n_splits none 2 = (1, [s!"Running {1} splits"]) ∧
    (5 > 2) ∧
    resolve_n_splits (some 5) 2
      = (1, [s!"Warning: n_splits cannot be larger than the number of dates. Reducing n_splits to {1}"]) ∧
    eval_models_CV (some { dateLevel := [4, 9] }) (some { colName := "label" }) []
        "label" "prediction" "value" (some 5) 3
      = eval_models_CV (some { dateLevel := [4, 9] }) (some { colName := "label" }) []
        "label" "prediction" "value" (some 1) 3 := by
  have h := n_splits_default_clamp_warn 5 2 3 { dateLevel := [4, 9] }
    { colName := "label" } [] "label" "prediction" "value"
  exact ⟨h.1, by decide, h.2.1 (by decide), h.2.2 (by decide)⟩

/-! ### CV fold structure: claim C8 -/

theorem getD_lt_getD_of_sorted (l : List Nat) (hs : l.Sorted (· < ·)) (a b : Nat)
    (hab : a < b) (hb : b < l.length) : l.getD a 0 < l.getD b 0 := by
  have ha : a < l.length := lt_trans hab hb
  have h1 : l.getD a 0 = l.get ⟨a, ha⟩ := by
    simp [List.getD_eq_getElem?_getD, List.getElem?_eq_getElem ha]
  have h2 : l.getD b 0 = l.get ⟨b, hb⟩ := by
    simp [List.getD_eq_getElem?_getD, List.getElem?_eq_getElem hb]
  rw [h1, h2]
  exact List.Sorted.rel_get_of_lt hs hab

/-- C8. On a chronologically sorted date axis, the CV split produces `k`
folds in chronological order: the test date blocks are pairwise disjoint
(indeed, every test date of an earlier fold precedes every test date of a
later fold), and each fold's train dates together with its test dates are
all contained in the next fold's train dates (expanding window). -/
theorem cv_folds_disjoint_expanding (dates : List Nat) (k : Nat)
    (idxFolds folds : List (List Nat × List Nat))
    (hs : dates.Sorted (· < ·))
    (hok : timeSeriesSplit k dates.length = .ok idxFolds)
    (hf : folds = foldDates dates idxFolds) :
    folds.length = k ∧
    (∀ i j, i < j → j < k →
      ∀ a ∈ (folds.getD i ([], [])).2, ∀ b ∈ (folds.getD j ([], [])).2, a < b) ∧
    (∀ i j, i < k → j < k → i ≠ j →
      ∀ a ∈ (folds.getD i ([], [])).2, a ∉ (folds.getD j ([], [])).2) ∧
    (∀ i, i + 1 < k →
      ∀ d, (d ∈ (folds.getD i ([], [])).1 ∨ d ∈ (folds.getD i ([], [])).2) →
        d ∈ (folds.getD (i + 1) ([], [])).1) := by
  subst hf
  unfold timeSeriesSplit at hok
  by_cases hk1 : k ≤ 1
  · rw [if_pos hk1] at hok; cases hok
  rw [if_neg hk1] at hok
  by_cases hkn : k + 1 > dates.length
  · rw [if_pos hkn] at hok; cases hok
  rw [if_neg hkn] at hok
  have hidx := Except.ok.inj hok
  have hn : k + 1 ≤ dates.length := by omega
  set n := dates.length with hnd
  set t := n / (k + 1) with ht
  have htle : (k + 1) * t ≤ n := by
    rw [Nat.mul_comm]
    exact Nat.div_mul_le_self n (k + 1)
  have ht1 : 1 ≤ t := (Nat.one_le_div_iff (by omega)).mpr hn
  -- the i-th fold, for i < k
  have hget : ∀ i, i < k →
      (foldDates dates idxFolds).getD i ([], [])
        = ((List.range (n - (k - i) * t)).map (fun idx => dates.getD idx 0),
           (List.range' (n - (k - i) * t) t).map (fun idx => dates.getD idx 0)) := by
    intro i hi
    have hlen : (foldDates dates idxFolds).length = k := by
      simp [foldDates, ← hidx]
    have hi' : i < (foldDates dates idxFolds).length := by omega
    rw [List.getD_eq_getElem?_getD, List.getElem?_eq_getElem hi']
    simp only [foldDates, ← hidx, List.getElem_map, List.getElem_range, Option.getD_some]
  have hlen : (foldDates dates idxFolds).length = k := by
    simp [foldDates, ← hidx]
  -- every test index of fold i is below every test index of fold j, i < j
  have main : ∀ i j, i < j → j < k →
      ∀ a ∈ ((foldDates dates idxFolds).getD i ([], [])).2,
      ∀ b ∈ ((foldDates dates idxFolds).getD j ([], [])).2, a < b := by
    intro i j hij hjk a ha b hb
    rw [hget i (by omega)] at ha
    rw [hget j hjk] at hb
    rcases List.mem_map.mp ha with ⟨ia, hia, rfl⟩
    rcases List.mem_map.mp hb with ⟨ib, hib, rfl⟩
    rw [List.mem_range'_1] at hia hib
    have hA : (k - i) * t ≤ (k + 1) * t := Nat.mul_le_mul_right t (by omega)
    have hBA : (k - j) * t + t ≤ (k - i) * t := by
      have h1 : (k - j) + 1 ≤ k - i := by omega
      have h2 : ((k - j) + 1) * t ≤ (k - i) * t := Nat.mul_le_mul_right t h1
      rw [Nat.succ_mul] at h2
      exact h2
    have htB : t ≤ (k - j) * t := by
      have : 1 * t ≤ (k - j) * t := Nat.mul_le_mul_right t (by omega)
      omega
    have hiab : ia < ib := by omega
    have hibn : ib < n := by omega
    exact getD_lt_getD_of_sorted dates hs ia ib hiab (by omega)
  refine ⟨hlen, main, ?_, ?_⟩
  · intro i j hi hj hne a ha hb
    rcases lt_or_gt_of_ne hne with h | h
    · exact absurd (main i j h hj a ha a hb) (lt_irrefl a)
    · exact absurd (main j i h hi a hb a ha) (lt_irrefl a)
  · intro i hi1 d hd
    have hA : (k - i) * t ≤ (k + 1) * t := Nat.mul_le_mul_right t (by omega)
    have hsplit : (k - i) * t = (k - (i + 1)) * t + t := by
      have h1 : k - i = (k - (i + 1)) + 1 := by omega
      rw [h1, Nat.succ_mul]
    rw [hget (i + 1) hi1]
    rw [hget i (by omega)] at hd
    rcases hd with hd | hd
    · rcases List.mem_map.mp hd with ⟨id, hid, rfl⟩
      rw [List.mem_range] at hid
      exact List.mem_map.mpr ⟨id, List.mem_range.mpr (by omega), rfl⟩
    · rcases List.mem_map.mp hd with ⟨id, hid, rfl⟩
      rw [List.mem_range'_1] at hid
      exact List.mem_map.mpr ⟨id, List.mem_range.mpr (by omega), rfl⟩

/-- Witness for C8: six sorted dates, two splits — folds
`([0,1],[2,3])` and `([0,1,2,3],[4,5])` on the axis itself. -/
theorem cv_folds_disjoint_expanding_witness :
    List.Sorted (· < ·) [0, 1, 2, 3, 4, 5] ∧
    timeSeriesSplit 2 ([0, 1, 2, 3, 4, 5] : List Nat).length
      = .ok [([0, 1], [2, 3]), ([0, 1, 2, 3], [4, 5])] ∧
    ((foldDates [0, 1, 2, 3, 4, 5] [([0, 1], [2, 3]), ([0, 1, 2, 3], [4, 5])]).length = 2 ∧
      (∀ i j, i < j → j < 2 →
        ∀ a ∈ ((foldDates [0, 1, 2, 3, 4, 5]
            [([0, 1], [2, 3]), ([0, 1, 2, 3], [4, 5])]).getD i ([], [])).2,
        ∀ b ∈ ((foldDates [0, 1, 2, 3, 4, 5]
            [([0, 1], [2, 3]), ([0, 1, 2, 3], [4, 5])]).getD j ([], [])).2, a < b) ∧
      (∀ i j, i < 2 → j < 2 → i ≠ j →
        ∀ a ∈ ((foldDates [0, 1, 2, 3, 4, 5]
            [([0, 1], [2, 3]), ([0, 1, 2, 3], [4, 5])]).getD i ([], [])).2,
          a ∉ ((foldDates [0, 1, 2, 3, 4, 5]
            [([0, 1], [2, 3]), ([0, 1, 2, 3], [4, 5])]).getD j ([], [])).2) ∧
      (∀ i, i + 1 < 2 →
        ∀ d, (d ∈ ((foldDates [0, 1, 2, 3, 4, 5]
              [([0, 1], [2, 3]), ([0, 1, 2, 3], [4, 5])]).getD i ([], [])).1 ∨
            d ∈ ((foldDates [0, 1, 2, 3, 4, 5]
              [([0, 1], [2, 3]), ([0, 1, 2, 3], [4, 5])]).getD i ([], [])).2) →
          d ∈ ((foldDates [0, 1, 2, 3, 4, 5]
              [([0, 1], [2, 3]), ([0, 1, 2, 3], [4, 5])]).getD (i + 1) ([], [])).1)) :=
  ⟨by decide, rfl,
   cv_folds_disjoint_expanding [0, 1, 2, 3, 4, 5] 2
     [([0, 1], [2, 3]), ([0, 1, 2, 3], [4, 5])] _ (by decide) rfl rfl⟩

/-! ### Empty-fold skipping: claim C6 -/

theorem foldl_filter_of_inert {α β : Type} (body : β → α → β) (p : α → Bool)
    (l : List α) (hinert : ∀ acc a, p a = false → body acc a = acc) :
    ∀ acc, l.foldl body acc = (l.filter p).foldl body acc := by
  induction l with
  | nil => intro acc; rfl
  | cons a t ih =>
    intro acc
    cases hp : p a with
    | true => rw [List.foldl_cons, List.filter_cons_of_pos hp, List.foldl_cons, ih]
    | false => rw [List.foldl_cons, hinert acc a hp, List.filter_cons_of_neg (by simp [hp]), ih]

theorem runFold_skip (X y : DFrame) (model : Model) (lbl pcn vcn : String) (w : Nat)
    (trainD testD : List Nat) (m : Metrics)
    (he : (_prep_set y testD).rows = []) :
    runFold X y model lbl pcn vcn w trainD testD m = ([], .ok m) := by
  unfold runFold
  simp [he]

/-- C6. Folds whose test-label set is empty are skipped without raising:
they issue no `fit`/`predict` call and leave the metrics accumulator
untouched, so the whole fold list behaves exactly like the list with the
empty-test-label folds removed; a fold with a non-empty test-label set runs
`fit` then `predict` and accumulates through the join.  (The single split
is the one-fold instance of the same per-fold block.) -/
theorem empty_fold_skip (X y : DFrame) (model : Model) (lbl pcn vcn : String)
    (w : Nat) (folds : List (List Nat × List Nat)) (fold : List Nat × List Nat)
    (metrics : Metrics)
    (hne : (_prep_set y fold.2).rows.length > 0) :
    evalOneModel X y model lbl pcn vcn w folds
      = evalOneModel X y model lbl pcn vcn w
          (folds.filter (fun f => (_prep_set y f.2).rows.length > 0)) ∧
    runFold X y model lbl pcn vcn w fold.1 fold.2 metrics
      = ([.fit model.name, .predict model.name],
         get_evaluation_metrics (_prep_set X fold.2)
           (model.run (_prep_set X fold.1) (_prep_set y fold.1) (_prep_set X fold.2))
           (_prep_set y fold.2) metrics vcn lbl pcn w) := by
  constructor
  · unfold evalOneModel
    rw [foldl_filter_of_inert _ _ folds ?_]
    intro acc f hp
    have he : (_prep_set y f.2).rows = [] := by
      rcases h : (_prep_set y f.2).rows with _ | ⟨r, t⟩
      · rfl
      · rw [h] at hp; simp at hp
    obtain ⟨evs, r⟩ := acc
    cases r with
    | error e => rfl
    | ok m => simp [foldStep, runFold_skip X y model lbl pcn vcn w f.1 f.2 m he]
  · unfold runFold
    simp only [if_pos hne]

/-- Witness for C6 on a concrete fold with one labelled test row. -/
theorem empty_fold_skip_witness :
    ((_prep_set { colName := "label", rows := [((0, 0), 1)] } [0]).rows.length > 0) ∧
    (evalOneModel { rows := [((0, 0), 5)] } { colName := "label", rows := [((0, 0), 1)] }
        { name := "m", run := fun _ _ t => t }
        "label" "prediction" "value" 3 [([], [0]), ([], [1])]
      = evalOneModel { rows := [((0, 0), 5)] } { colName := "label", rows := [((0, 0), 1)] }
          { name := "m", run := fun _ _ t => t }
          "label" "prediction" "value" 3
          ([([], [0]), ([], [1])].filter
            (fun f =>
              (_prep_set { colName := "label", rows := [((0, 0), 1)] } f.2).rows.length > 0)) ∧
      runFold { rows := [((0, 0), 5)] } { colName := "label", rows := [((0, 0), 1)] }
          { name := "m", run := fun _ _ t => t }
          "label" "prediction" "value" 3 ([] : List Nat) [0] []
        = ([.fit "m", .predict "m"],
           get_evaluation_metrics
             (_prep_set { rows := [((0, 0), 5)] } [0])
             (({ name := "m", run := fun _ _ t => t } : Model).run
               (_prep_set { rows := [((0, 0), 5)] } ([] : List Nat))
               (_prep_set { colName := "label", rows := [((0, 0), 1)] } ([] : List Nat))
               (_prep_set { rows := [((0, 0), 5)] } [0]))
             (_prep_set { colName := "label", rows := [((0, 0), 1)] } [0])
             [] "value" "label" "prediction" 3)) :=
  ⟨by decide,
   empty_fold_skip { rows := [((0, 0), 5)] } { colName := "label", rows := [((0, 0), 1)] }
     { name := "m", run := fun _ _ t => t }
     "label" "prediction" "value" 3 [([], [0]), ([], [1])] ([], [0]) [] (by decide)⟩

/-! ### Per-model accumulator freshness and category coverage: claim C7 -/

theorem modelStep_error_absorb (f : Model → List Event × Except PyErr (List (Nat × Final)))
    (models : List Model) (evs : List Event) (e : PyErr) :
    models.foldl (modelStep f) (evs, .error e) = (evs, .error e) := by
  induction models with
  | nil => rfl
  | cons m t ih => rw [List.foldl_cons]; exact ih

theorem runModelsLoop_ok_index (f : Model → List Event × Except PyErr (List (Nat × Final))) :
    ∀ (models : List Model) (evs : List Event)
      (l0 l : List (String × List (Nat × Final))),
      (models.foldl (modelStep f) (evs, .ok l0)).2 = .ok l →
      ∃ tail, l = l0 ++ tail ∧ tail.length = models.length ∧
        ∀ i, i < models.length →
          (tail.getD i ("", [])).1 = (models.getD i default).name ∧
          (f (models.getD i default)).2 = .ok (tail.getD i ("", [])).2 := by
  intro models
  induction models with
  | nil =>
    intro evs l0 l h
    refine ⟨[], ?_, rfl, by intro i hi; simp at hi⟩
    simpa using (Except.ok.inj h).symm
  | cons m t ih =>
    intro evs l0 l h
    rw [List.foldl_cons] at h
    rcases hf : (f m).2 with e | fm
    · have hms : modelStep f (evs, .ok l0) m = (evs ++ (f m).1, .error e) := by
        simp [modelStep, hf]
      rw [hms, modelStep_error_absorb] at h
      cases h
    · have hms : modelStep f (evs, .ok l0) m
          = (evs ++ (f m).1, .ok (l0 ++ [(m.name, fm)])) := by
        simp [modelStep, hf]
      rw [hms] at h
      rcases ih _ _ _ h with ⟨tail, htl, hlen, hidx⟩
      refine ⟨(m.name, fm) :: tail, by simpa using htl, by simp [hlen], ?_⟩
      intro i hi
      cases i with
      | zero => exact ⟨rfl, by simp [hf]⟩
      | succ j => simpa using hidx j (by simpa using hi)

theorem mem_keys_updateCat (m : Metrics) (c c' : Nat) (f : Counts → Counts)
    (h : c' ∈ m.map Prod.fst) : c' ∈ (updateCat m c f).map Prod.fst := by
  induction m with
  | nil => simp at h
  | cons p t ih =>
    by_cases hp : p.1 = c
    · simpa [updateCat, hp] using h
    · rcases (by simpa using h : c' = p.1 ∨ c' ∈ t.map Prod.fst) with h1 | h1
      · simp [updateCat, hp, h1]
      · simp [updateCat, hp, ih h1]

theorem mem_keys_gmws (predicted actual : List (Option Int)) (cat c' : Nat)
    (m : Metrics) (w : Nat) (h : c' ∈ m.map Prod.fst) :
    c' ∈ (get_metrics_with_shift predicted actual cat m w).map Prod.fst :=
  mem_keys_updateCat m cat c' _ h

theorem mem_keys_gmfoc (dataset : JFrame) (lbl pcn vcn : String) (w cat c' : Nat)
    (m m' : Metrics)
    (hok : get_metrics_for_one_category dataset lbl pcn vcn w cat m = .ok m')
    (h : c' ∈ m.map Prod.fst) : c' ∈ m'.map Prod.fst := by
  simp only [get_metrics_for_one_category] at hok
  rcases h1 : (dataset.rows.filter (fun r => r.cat = cat)).mapM (rowCol dataset pcn)
    with e | predicted
  · rw [h1] at hok; cases hok
  rw [h1] at hok
  rcases h2 : (dataset.rows.filter (fun r => r.cat = cat)).mapM (rowCol dataset lbl)
    with e | actual
  · rw [h2] at hok; cases hok
  rw [h2] at hok
  rcases h3 : (dataset.rows.filter (fun r => r.cat = cat)).mapM (rowCol dataset vcn)
    with e | vals
  · rw [h3] at hok; cases hok
  rw [h3] at hok
  have hm' := (Except.ok.inj hok)
  rw [← hm']
  exact mem_keys_updateCat _ cat c' _ (mem_keys_gmws predicted actual cat c' m w h)

theorem mem_keys_accum (dataset : JFrame) (lbl pcn vcn : String) (w c' : Nat) :
    ∀ (cats : List Nat) (m m' : Metrics),
      accumCategories dataset lbl pcn vcn w cats m = .ok m' →
      c' ∈ m.map Prod.fst → c' ∈ m'.map Prod.fst := by
  intro cats
  induction cats with
  | nil =>
    intro m m' hok h
    rw [← Except.ok.inj hok]
    exact h
  | cons c cs ih =>
    intro m m' hok h
    unfold accumCategories at hok
    rcases h1 : get_metrics_for_one_category dataset lbl pcn vcn w c m with e | m2
    · rw [h1] at hok; cases hok
    · rw [h1] at hok
      exact ih m2 m' hok (mem_keys_gmfoc dataset lbl pcn vcn w c c' m m2 h1 h)

theorem mem_keys_gem (tv pf lf : DFrame) (m m' : Metrics) (vcn lbl pcn : String)
    (w c' : Nat) (hok : get_evaluation_metrics tv pf lf m vcn lbl pcn w = .ok m')
    (h : c' ∈ m.map Prod.fst) : c' ∈ m'.map Prod.fst := by
  unfold get_evaluation_metrics at hok
  rcases h1 : _join_pred_to_dataset lf pf tv lbl vcn with e | results
  · rw [h1] at hok; cases hok
  · rw [h1] at hok
    exact mem_keys_accum results lbl pcn vcn w c' (resultCategories results) m m' hok h

theorem mem_keys_runFold (X y : DFrame) (model : Model) (lbl pcn vcn : String)
    (w : Nat) (trainD testD : List Nat) (m m' : Metrics)
    (hok : (runFold X y model lbl pcn vcn w trainD testD m).2 = .ok m')
    (c' : Nat) (h : c' ∈ m.map Prod.fst) : c' ∈ m'.map Prod.fst := by
  unfold runFold at hok
  by_cases hc : (_prep_set y testD).rows.length > 0
  · rw [if_pos hc] at hok
    exact mem_keys_gem _ _ _ m m' vcn lbl pcn w c' hok h
  · rw [if_neg hc] at hok
    rw [← Except.ok.inj hok]
    exact h

theorem foldStep_error_absorb (X y : DFrame) (model : Model) (lbl pcn vcn : String)
    (w : Nat) (folds : List (List Nat × List Nat)) (evs : List Event) (e : PyErr) :
    folds.foldl (foldStep X y model lbl pcn vcn w) (evs, .error e) = (evs, .error e) := by
  induction folds with
  | nil => rfl
  | cons fold t ih => rw [List.foldl_cons]; exact ih

theorem mem_keys_foldFolds (X y : DFrame) (model : Model) (lbl pcn vcn : String)
    (w c' : Nat) :
    ∀ (folds : List (List Nat × List Nat)) (evs : List Event) (m0 m' : Metrics),
      ((folds.foldl (foldStep X y model lbl pcn vcn w) (evs, .ok m0)).2 = .ok m') →
      c' ∈ m0.map Prod.fst → c' ∈ m'.map Prod.fst := by
  intro folds
  induction folds with
  | nil =>
    intro evs m0 m' hok h
    rw [← Except.ok.inj hok]
    exact h
  | cons fold t ih =>
    intro evs m0 m' hok h
    rw [List.foldl_cons] at hok
    have hstep : foldStep X y model lbl pcn vcn w (evs, .ok m0) fold
        = (evs ++ (runFold X y model lbl pcn vcn w fold.1 fold.2 m0).1,
           (runFold X y model lbl pcn vcn w fold.1 fold.2 m0).2) := by
      simp [foldStep]
    rw [hstep] at hok
    rcases hr : (runFold X y model lbl pcn vcn w fold.1 fold.2 m0).2 with e | m1
    · rw [hr, foldStep_error_absorb] at hok; cases hok
    · rw [hr] at hok
      exact ih _ m1 m' hok
        (mem_keys_runFold X y model lbl pcn vcn w fold.1 fold.2 m0 m1 hr c' h)

theorem keys_init (cats : List Nat) : (_initialize_metrics cats).map Prod.fst = cats := by
  simp [_initialize_metrics, List.map_map, Function.comp_def]

theorem keys_final (m : Metrics) :
    (get_final_metrics m).map Prod.fst = m.map Prod.fst := by
  simp [get_final_metrics, List.map_map, Function.comp]

theorem evalOneModel_coverage (X y : DFrame) (model : Model) (lbl pcn vcn : String)
    (w : Nat) (folds : List (List Nat × List Nat)) (fm : List (Nat × Final))
    (h : (evalOneModel X y model lbl pcn vcn w folds).2 = .ok fm) :
    ∀ c ∈ X.catLevel, c ∈ fm.map Prod.fst := by
  intro c hc
  have h2 : ((folds.foldl (foldStep X y model lbl pcn vcn w)
      ([], .ok (_initialize_metrics X.catLevel))).2).map get_final_metrics = .ok fm := h
  rcases hr : (folds.foldl (foldStep X y model lbl pcn vcn w)
      ([], .ok (_initialize_metrics X.catLevel))).2 with e | m'
  · rw [hr] at h2; cases h2
  · rw [hr] at h2
    have hfm : get_final_metrics m' = fm := Except.ok.inj h2
    rw [← hfm, keys_final]
    exact mem_keys_foldFolds X y model lbl pcn vcn w c folds [] _ m' hr
      (by rw [keys_init]; exact hc)

theorem cvModelEval_coverage (X y : DFrame) (lbl pcn vcn : String) (w ns nd : Nat)
    (model : Model) (fm : List (Nat × Final))
    (h : (cvModelEval X y lbl pcn vcn w ns nd model).2 = .ok fm) :
    ∀ c ∈ X.catLevel, c ∈ fm.map Prod.fst := by
  unfold cvModelEval at h
  rcases hts : timeSeriesSplit ns nd with e | idx
  · rw [hts] at h; cases h
  · rw [hts] at h
    exact evalOneModel_coverage X y model lbl pcn vcn w _ fm h

/-- C7. In both harnesses, a successful run maps each model, in order, to
the result of evaluating that model alone from a freshly initialized
accumulator (`evalOneModel`/`cvModelEval` start from
`_initialize_metrics X.catLevel`, the full category axis): the accumulators
are independent across models, and every category of the full dataset
appears in every model's final report. -/
theorem fresh_metrics_per_model (X y : DFrame) (models : List Model)
    (lbl pcn vcn : String) (w tp : Nat) (ns : Option Nat)
    (l lc : List (String × List (Nat × Final))) :
    ((eval_models (some X) (some y) models lbl pcn vcn w tp).2 = .ok l →
      l.length = models.length ∧
      (∀ i, i < models.length →
        (l.getD i ("", [])).1 = (models.getD i default).name ∧
        (evalOneModel X y (models.getD i default) lbl pcn vcn w
            [((split_percent X.dateLevel tp).1, (split_percent X.dateLevel tp).2)]).2
          = .ok (l.getD i ("", [])).2) ∧
      (∀ p ∈ l, ∀ c ∈ X.catLevel, c ∈ p.2.map Prod.fst)) ∧
    ((eval_models_CV (some X) (some y) models lbl pcn vcn ns w).2 = .ok lc →
      lc.length = models.length ∧
      (∀ i, i < models.length →
        (lc.getD i ("", [])).1 = (models.getD i default).name ∧
        (cvModelEval X y lbl pcn vcn w
            ((resolve_n_splits ns X.dateLevel.length).1) X.dateLevel.length
            (models.getD i default)).2
          = .ok (lc.getD i ("", [])).2) ∧
      (∀ p ∈ lc, ∀ c ∈ X.catLevel, c ∈ p.2.map Prod.fst)) := by
  constructor
  · intro h
    have h' : (models.foldl
        (modelStep (fun model => evalOneModel X y model lbl pcn vcn w
          [((split_percent X.dateLevel tp).1, (split_percent X.dateLevel tp).2)]))
        ([], .ok [])).2 = .ok l := h
    rcases runModelsLoop_ok_index _ models [] [] l h' with ⟨tail, htl, hlen, hidx⟩
    have htail : tail = l := by simpa using htl.symm
    subst htail
    refine ⟨hlen, ?_, ?_⟩
    · intro i hi
      exact hidx i hi
    · intro p hp c hc
      rcases List.mem_iff_getElem.mp hp with ⟨i, hilen, rfl⟩
      have hi : i < models.length := by omega
      have hgd : tail.getD i ("", []) = tail[i] := by
        simp [List.getD_eq_getElem?_getD, List.getElem?_eq_getElem hilen]
      have := (hidx i hi).2
      rw [hgd] at this
      exact evalOneModel_coverage X y (models.getD i default) lbl pcn vcn w _ _ this c hc
  · intro h
    have h' : (models.foldl
        (modelStep (cvModelEval X y lbl pcn vcn w
          ((resolve_n_splits ns X.dateLevel.length).1) X.dateLevel.length))
        ([], .ok [])).2 = .ok lc := h
    rcases runModelsLoop_ok_index _ models [] [] lc h' with ⟨tail, htl, hlen, hidx⟩
    have htail : tail = lc := by simpa using htl.symm
    subst htail
    refine ⟨hlen, ?_, ?_⟩
    · intro i hi
      exact hidx i hi
    · intro p hp c hc
      rcases List.mem_iff_getElem.mp hp with ⟨i, hilen, rfl⟩
      have hi : i < models.length := by omega
      have hgd : tail.getD i ("", []) = tail[i] := by
        simp [List.getD_eq_getElem?_getD, List.getElem?_eq_getElem hilen]
      have := (hidx i hi).2
      rw [hgd] at this
      exact cvModelEval_coverage X y lbl pcn vcn w _ _ (models.getD i default) _ this c hc

/-- Witness for C7: one model over a dataset with category axis `[3]` and no
dates — the run succeeds, the report is keyed by the model's name, and
category 3 appears (with zero counts) in the report. -/
theorem fresh_metrics_per_model_witness :
    ((eval_models (some { catLevel := [3] }) (some { colName := "label" })
        [{ name := "m", run := fun _ _ t => t }] "label" "prediction" "value" 3 70).2
      = .ok [("m", get_final_metrics (_initialize_metrics [3]))]) ∧
    ([("m", get_final_metrics (_initialize_metrics [3]))].length
        = [({ name := "m", run := fun _ _ t => t } : Model)].length ∧
      (∀ i, i < [({ name := "m", run := fun _ _ t => t } : Model)].length →
        (([("m", get_final_metrics (_initialize_metrics [3]))].getD i ("", [])).1
            = ([({ name := "m", run := fun _ _ t => t } : Model)].getD i default).name ∧
          (evalOneModel { catLevel := [3] } { colName := "label" }
              ([({ name := "m", run := fun _ _ t => t } : Model)].getD i default)
              "label" "prediction" "value" 3 [(([] : List Nat), ([] : List Nat))]).2
            = .ok (([("m", get_final_metrics (_initialize_metrics [3]))].getD i ("", [])).2))) ∧
      (∀ p ∈ [("m", get_final_metrics (_initialize_metrics [3]))],
        ∀ c ∈ ([3] : List Nat), c ∈ p.2.map Prod.fst)) := by
  refine ⟨rfl, ?_⟩
  exact (fresh_metrics_per_model { catLevel := [3] } { colName := "label" }
    [{ name := "m", run := fun _ _ t => t }] "label" "prediction" "value" 3 70 none
    [("m", get_final_metrics (_initialize_metrics [3]))] []).1 rfl

/-! ### Hardcoded column/key names in the join path: claim C9 -/

theorem append_suffix_ne_prediction (c t : String)
    (ht : t.data = ['_', 'x'] ∨ t.data = ['_', 'y']) : c ++ t ≠ "prediction" := by
  intro h
  have hd : c.data ++ t.data = "prediction".data := by
    rw [← String.data_append]
    exact congrArg String.data h
  have hpd : "prediction".data.length = 10 := by decide
  rcases ht with ht | ht <;>
  · rw [ht] at hd
    have hl : c.data.length = 8 := by
      have := congrArg List.length hd
      simp only [List.length_append, hpd] at this
      simpa using this
    have h9 := congrArg (fun l => l.getD 9 ' ') hd
    simp only at h9
    rw [List.getD_append_right _ _ _ _ (by omega), hl] at h9
    revert h9
    decide

theorem mapM_cons_error {α β : Type} (f : α → Except PyErr β) (a : α) (l : List α)
    (e : PyErr) (h : f a = .error e) : (a :: l).mapM f = .error e := by
  rw [List.mapM_cons, h]; rfl

/-- C9. The join path works only with the hardcoded names: merging requires
both frames' index level names to be exactly `('date', 'category')` (else
it raises), the column selection after the first merge requires a column
literally named `'prediction'` (else it raises, whatever
`prediction_col_name` was configured), and reading the joined table through
a configured `prediction_col_name` that is none of the joined columns
(`'prediction'`, the label column, the value column) raises a `KeyError`
as soon as a category slice is non-empty. -/
theorem join_hardcoded_names (original prediction values : DFrame)
    (labelCol valueCol pcn : String) (jf : JFrame) (w cat : Nat) (m : Metrics) :
    (prediction.levelNames ≠ ("date", "category") →
      ∃ e, _join_pred_to_dataset original prediction values labelCol valueCol
        = .error e) ∧
    (original.levelNames ≠ ("date", "category") →
      ∃ e, _join_pred_to_dataset original prediction values labelCol valueCol
        = .error e) ∧
    (prediction.colName ≠ "prediction" → original.colName ≠ "prediction" →
      ∃ e, _join_pred_to_dataset original prediction values labelCol valueCol
        = .error e) ∧
    (pcn ≠ "prediction" → pcn ≠ jf.labelName → pcn ≠ jf.valueName →
      jf.rows.filter (fun r => r.cat = cat) ≠ [] →
      ∃ e, get_metrics_for_one_category jf labelCol pcn valueCol w cat m
        = .error e) := by
  refine ⟨?_, ?_, ?_, ?_⟩
  · intro h
    refine ⟨"KeyError: merge keys date, category not found", ?_⟩
    unfold _join_pred_to_dataset
    rw [if_pos (Or.inl h)]
  · intro h
    refine ⟨"KeyError: merge keys date, category not found", ?_⟩
    unfold _join_pred_to_dataset
    rw [if_pos (Or.inr h)]
  · intro hp ho
    by_cases hlev : prediction.levelNames ≠ ("date", "category")
        ∨ original.levelNames ≠ ("date", "category")
    · refine ⟨"KeyError: merge keys date, category not found", ?_⟩
      unfold _join_pred_to_dataset
      rw [if_pos hlev]
    · have hcond : "prediction" ∉ (if prediction.colName = original.colName
          then [prediction.colName ++ "_x", original.colName ++ "_y"]
          else [prediction.colName, original.colName]) ∨
          labelCol ∉ (if prediction.colName = original.colName
          then [prediction.colName ++ "_x", original.colName ++ "_y"]
          else [prediction.colName, original.colName]) := by
        left
        by_cases hc : prediction.colName = original.colName
        · rw [if_pos hc]
          intro hmem
          rcases List.mem_cons.mp hmem with h1 | h1
          · exact append_suffix_ne_prediction prediction.colName "_x"
              (Or.inl (by decide)) h1.symm
          · rcases List.mem_cons.mp h1 with h2 | h2
            · exact append_suffix_ne_prediction original.colName "_y"
                (Or.inr (by decide)) h2.symm
            · simp at h2
        · rw [if_neg hc]
          intro hmem
          rcases List.mem_cons.mp hmem with h1 | h1
          · exact hp h1.symm
          · rcases List.mem_cons.mp h1 with h2 | h2
            · exact ho h2.symm
            · simp at h2
      refine ⟨"KeyError: column selection after first merge", ?_⟩
      simp only [_join_pred_to_dataset]
      rw [if_neg hlev, if_pos hcond]
  · intro h1 h2 h3 hne
    rcases hr : jf.rows.filter (fun r => r.cat = cat) with _ | ⟨r, t⟩
    · exact absurd hr hne
    · have hrow : rowCol jf pcn r = .error (.keyError pcn) := by
        simp [rowCol, h1, h2, h3]
      refine ⟨.keyError pcn, ?_⟩
      simp only [get_metrics_for_one_category]
      rw [hr, mapM_cons_error (rowCol jf pcn) r t _ hrow]

/-- Witness for C9: wrong level names raise, a prediction column not named
`'prediction'` raises, and a configured `prediction_col_name` of `'pred2'`
raises on a table with one row in category 0. -/
theorem join_hardcoded_names_witness :
    ((({ levelNames := ("d", "c"), colName := "prediction" } : DFrame).levelNames
        ≠ ("date", "category") ∧
      ∃ e, _join_pred_to_dataset { colName := "label" }
        { levelNames := ("d", "c"), colName := "prediction" } {} "label" "value"
        = .error e) ∧
    (({ colName := "foo" } : DFrame).colName ≠ "prediction" ∧
      ({ colName := "label" } : DFrame).colName ≠ "prediction" ∧
      ∃ e, _join_pred_to_dataset { colName := "label" } { colName := "foo" } {}
        "label" "value" = .error e) ∧
    (("pred2" : String) ≠ "prediction" ∧
      ("pred2" : String) ≠ "label" ∧ ("pred2" : String) ≠ "value" ∧
      [({ date := 0, cat := 0, prediction := some 1, label := some 0, value := none } : JRow)] ≠ ([] : List JRow) ∧
      ∃ e, get_metrics_for_one_category
        { labelName := "label", valueName := "value",
          rows := [{ date := 0, cat := 0, prediction := some 1, label := some 0, value := none }] }
        "label" "pred2" "value" 3 0 [] = .error e)) := by
  refine ⟨⟨by decide, ?_⟩, ⟨by decide, by decide, ?_⟩,
    ⟨by decide, by decide, by decide, by decide, ?_⟩⟩
  · exact (join_hardcoded_names { colName := "label" }
      { levelNames := ("d", "c"), colName := "prediction" } {} "label" "value"
      "prediction" { labelName := "", valueName := "", rows := [] } 0 0 []).1
      (by decide)
  · exact (join_hardcoded_names { colName := "label" } { colName := "foo" } {}
      "label" "value" "prediction" { labelName := "", valueName := "", rows := [] }
      0 0 []).2.2.1 (by decide) (by decide)
  · refine (join_hardcoded_names { colName := "label" } { colName := "foo" } {}
      "label" "value" "pred2"
      { labelName := "label", valueName := "value",
        rows := [{ date := 0, cat := 0, prediction := some 1, label := some 0, value := none }] } 3 0 []).2.2.2
      (by decide) (by decide) (by decide) (by decide)

/-! ### Input frames are never mutated: claim C10 -/

theorem set_append_two {α : Type} (h : List α) (a b c : α) :
    (h ++ [a, b]).set (h.length + 1) c = h ++ [a, c] := by
  induction h with
  | nil => rfl
  | cons u t ih => simp [List.set, ih]

theorem prepSetH_eq (h : Heap) (x : Nat) (dates : List Nat) :
    prepSetH h x dates
      = (h ++ [h.getD x default, _prep_set (h.getD x default) dates], h.length + 1) := by
  have hc : (h ++ [h.getD x default]).getD h.length default = h.getD x default := by
    rw [List.getD_append_right _ _ _ _ (le_refl _)]
    simp
  have h2 : h ++ [h.getD x default] ++ [locDates (h.getD x default) dates]
      = h ++ [h.getD x default, locDates (h.getD x default) dates] := by
    simp
  have hs : (h ++ [h.getD x default, locDates (h.getD x default) dates]).getD
      (h.length + 1) default = locDates (h.getD x default) dates := by
    rw [List.getD_append_right _ _ _ _ (by omega)]
    simp
  simp only [prepSetH, hc, h2, hs, set_append_two]
  rfl

theorem prefix_getD (h h' : Heap) (hp : h <+: h') (i : Nat) (hi : i < h.length) :
    h'.getD i default = h.getD i default := by
  rcases hp with ⟨t, rfl⟩
  exact List.getD_append _ _ _ _ hi

theorem prepSetH_extends (h : Heap) (x : Nat) (dates : List Nat) :
    h <+: (prepSetH h x dates).1 := by
  rw [prepSetH_eq]
  exact ⟨_, rfl⟩

theorem runFoldH_extends (h : Heap) (x y : Nat) (model : Model)
    (lbl pcn vcn : String) (w : Nat) (trainD testD : List Nat) (m : Metrics) :
    h <+: (runFoldH h x y model lbl pcn vcn w trainD testD m).1 := by
  have p1 := prepSetH_extends h x trainD
  have p2 := prepSetH_extends (prepSetH h x trainD).1 y trainD
  have p3 := prepSetH_extends (prepSetH (prepSetH h x trainD).1 y trainD).1 x testD
  have p4 := prepSetH_extends
    (prepSetH (prepSetH (prepSetH h x trainD).1 y trainD).1 x testD).1 y testD
  have hp : h <+:
      (prepSetH (prepSetH (prepSetH (prepSetH h x trainD).1 y trainD).1 x testD).1
        y testD).1 :=
    ((p1.trans p2).trans p3).trans p4
  simp only [runFoldH]
  split
  · exact hp.trans (List.prefix_append _ _)
  · exact hp

theorem foldStepH_extends (x y : Nat) (model : Model) (lbl pcn vcn : String)
    (w : Nat) (acc : Heap × (List Event × Except PyErr Metrics))
    (fold : List Nat × List Nat) :
    acc.1 <+: (foldStepH x y model lbl pcn vcn w acc fold).1 := by
  unfold foldStepH
  rcases acc with ⟨hh, evs, r⟩
  cases r with
  | error e => exact List.prefix_refl _
  | ok m => exact runFoldH_extends hh x y model lbl pcn vcn w fold.1 fold.2 m

theorem foldlH_extends (x y : Nat) (model : Model) (lbl pcn vcn : String) (w : Nat) :
    ∀ (folds : List (List Nat × List Nat))
      (acc : Heap × (List Event × Except PyErr Metrics)),
      acc.1 <+: (folds.foldl (foldStepH x y model lbl pcn vcn w) acc).1 := by
  intro folds
  induction folds with
  | nil => intro acc; exact List.prefix_refl _
  | cons fold t ih =>
    intro acc
    rw [List.foldl_cons]
    exact (foldStepH_extends x y model lbl pcn vcn w acc fold).trans (ih _)

theorem evalOneModelH_extends (h : Heap) (x y : Nat) (model : Model)
    (lbl pcn vcn : String) (w : Nat) (folds : List (List Nat × List Nat)) :
    h <+: (evalOneModelH h x y model lbl pcn vcn w folds).1 :=
  foldlH_extends x y model lbl pcn vcn w folds
    (h, ([], .ok (_initialize_metrics ((h.getD x default).catLevel))))

theorem modelStepH_extends
    (f : Heap → Model → Heap × (List Event × Except PyErr (List (Nat × Final))))
    (hf : ∀ hh model, hh <+: (f hh model).1)
    (acc : Heap × (List Event × Except PyErr (List (String × List (Nat × Final)))))
    (model : Model) : acc.1 <+: (modelStepH f acc model).1 := by
  rcases acc with ⟨hh, evs, r⟩
  cases r with
  | error e => exact List.prefix_refl _
  | ok l =>
    cases hs : (f hh model).2.2 with
    | error e =>
      simp only [modelStepH, hs]
      exact hf hh model
    | ok fm =>
      simp only [modelStepH, hs]
      exact hf hh model

theorem runModelsLoopH_extends
    (f : Heap → Model → Heap × (List Event × Except PyErr (List (Nat × Final))))
    (hf : ∀ hh model, hh <+: (f hh model).1) :
    ∀ (models : List Model)
      (acc : Heap × (List Event × Except PyErr (List (String × List (Nat × Final))))),
      acc.1 <+: (models.foldl (modelStepH f) acc).1 := by
  intro models
  induction models with
  | nil => intro acc; exact List.prefix_refl _
  | cons m t ih =>
    intro acc
    rw [List.foldl_cons]
    exact (modelStepH_extends f hf acc m).trans (ih _)

/-- C10. Neither harness ever mutates a frame that existed before the call:
every per-fold subset is built on a fresh copy (`_prep_set` writes only to
the object it just allocated), so after `eval_models` and `eval_models_CV`
finish, every pre-existing heap address — in particular the input frames
`X` and `y` — still holds exactly the frame it held before. -/
theorem inputs_unchanged (h : Heap) (x y i : Nat) (models : List Model)
    (lbl pcn vcn : String) (w tp : Nat) (ns : Option Nat) (hi : i < h.length) :
    (eval_modelsH h x y models lbl pcn vcn w tp).1.getD i default = h.getD i default ∧
    (eval_models_CVH h x y models lbl pcn vcn ns w).1.getD i default
      = h.getD i default := by
  constructor
  · refine prefix_getD h _ ?_ i hi
    exact runModelsLoopH_extends
      (fun hh model => evalOneModelH hh x y model lbl pcn vcn w
        [((split_percent ((h.getD x default).dateLevel) tp).1,
          (split_percent ((h.getD x default).dateLevel) tp).2)])
      (fun hh model => evalOneModelH_extends hh x y model lbl pcn vcn w _)
      models (h, ([], .ok []))
  · refine prefix_getD h _ ?_ i hi
    have hf : ∀ hh model, hh <+:
        ((fun (hh : Heap) (model : Model) =>
          match timeSeriesSplit
              ((resolve_n_splits ns ((h.getD x default).dateLevel).length).1)
              ((h.getD x default).dateLevel).length with
          | .error e =>
            ((hh, ([], Except.error (PyErr.valueError e))) :
              Heap × (List Event × Except PyErr (List (Nat × Final))))
          | .ok idxFolds =>
            evalOneModelH hh x y model lbl pcn vcn w
              (foldDates ((h.getD x default).dateLevel) idxFolds)) hh model).1 := by
      intro hh model
      rcases hts : timeSeriesSplit
          ((resolve_n_splits ns ((h.getD x default).dateLevel).length).1)
          ((h.getD x default).dateLevel).length with e | idxFolds
      · simp only [hts]
        exact List.prefix_refl _
      · simp only [hts]
        exact evalOneModelH_extends hh x y model lbl pcn vcn w _
    exact runModelsLoopH_extends _ hf models (h, ([], .ok []))

/-- Witness for C10: a two-frame heap (features at 0, labels at 1), one
model, one date — both input frames are untouched at address 0. -/
theorem inputs_unchanged_witness :
    (0 < ([{ dateLevel := [0], catLevel := [0], rows := [((0, 0), 5)] },
           { colName := "label", dateLevel := [0], catLevel := [0],
             rows := [((0, 0), 1)] }] : Heap).length) ∧
    ((eval_modelsH [{ dateLevel := [0], catLevel := [0], rows := [((0, 0), 5)] },
        { colName := "label", dateLevel := [0], catLevel := [0],
          rows := [((0, 0), 1)] }] 0 1
        [{ name := "m", run := fun _ _ t => t }] "label" "prediction" "value" 3 70).1.getD
          0 default
        = ([{ dateLevel := [0], catLevel := [0], rows := [((0, 0), 5)] },
            { colName := "label", dateLevel := [0], catLevel := [0],
              rows := [((0, 0), 1)] }] : Heap).getD 0 default ∧
      (eval_models_CVH [{ dateLevel := [0], catLevel := [0], rows := [((0, 0), 5)] },
        { colName := "label", dateLevel := [0], catLevel := [0],
          rows := [((0, 0), 1)] }] 0 1
        [{ name := "m", run := fun _ _ t => t }] "label" "prediction" "value" none 3).1.getD
          0 default
        = ([{ dateLevel := [0], catLevel := [0], rows := [((0, 0), 5)] },
            { colName := "label", dateLevel := [0], catLevel := [0],
              rows := [((0, 0), 1)] }] : Heap).getD 0 default) :=
  ⟨by decide,
   inputs_unchanged [{ dateLevel := [0], catLevel := [0], rows := [((0, 0), 5)] },
       { colName := "label", dateLevel := [0], catLevel := [0], rows := [((0, 0), 1)] }]
     0 1 0 [{ name := "m", run := fun _ _ t => t }] "label" "prediction" "value" 3 70
     none (by decide)⟩

end Moda
